import Mathlib

/-!
Verification development for the lead-management repository.

The definitions below are shallow embeddings of the TypeScript source:
the retry wrapper and response parsing of `src/services/geminiService.ts`,
the discovery orchestration of `src/components/LeadDiscovery.tsx`, and the
campaign-finish bookkeeping of the application shell and outreach view.
Asynchronous operations are modelled as pure functions from the attempt
number (or candidate index) to an `Except` outcome; the wall-clock delays
the code performs are recorded as data (lists of wait times in
milliseconds, or explicit pause events) so that timing claims become
claims about those lists.
-/

/-! ## Errors and the rate-limit classifier (src/services/geminiService.ts) -/

/-- A thrown JavaScript error as inspected by `withRetry`: an optional
`message` string and an optional numeric `status` field. -/
structure JsError where
  message : Option String
  status : Option Nat
deriving DecidableEq, Repr

/-- Substring test modelling `String.prototype.includes`. -/
def containsSub (hay needle : String) : Bool :=
  decide (needle.data <:+: hay.data)

/-- Model of the assignment of errorText in `withRetry` (message, with a
missing or empty message yielding the empty string). -/
def errorTextOf (e : JsError) : String :=
  match e.message with
  | none => ""
  | some s => s

/-- The rate-limit test of `withRetry`:
a 429 or quota substring in the message text, or a 429 status field. -/
def isRateLimit (e : JsError) : Bool :=
  containsSub (errorTextOf e) "429" || containsSub (errorTextOf e) "quota"
    || e.status == some 429

/-! ## The retry wrapper `withRetry`

The wrapped operation is modelled as `fn : Nat → Except JsError T`, giving
the outcome of its i-th invocation (0-based).  `jitter i` models the value
of `Math.random() * 1000` drawn before the i-th re-run; the code waits
`Math.pow(2, i) * 1000 + jitter i` milliseconds.  The run result records
the final outcome, the list of waits performed (in order, in
milliseconds), and the number of invocations of the operation. -/

/-- Outcome of a `withRetry` run: final result, the wait performed before
each re-run (ms), and how many times the operation was invoked. -/
structure RetryRun (T : Type) where
  result : Except JsError T
  waits : List Nat
  calls : Nat
deriving Repr

/-- The `for (let i = 0; i < maxRetries; i++)` loop of `withRetry`.
`i` is the current attempt index and `rem` the number of loop iterations
still allowed (`maxRetries - i`); `last` is the `lastError` variable.
The guard `i < maxRetries - 1` of the source is equivalently `0 < rem - 1`
at iteration `i`, i.e. `1 < rem`. -/
def withRetryLoop {T : Type} (fn : Nat → Except JsError T) (jitter : Nat → Nat) :
    Nat → Nat → Option JsError → RetryRun T
  | _, 0, last =>
    { result := .error (last.getD { message := none, status := none }),
      waits := [], calls := 0 }
  | i, rem + 1, _ =>
    match fn i with
    | .ok v => { result := .ok v, waits := [], calls := 1 }
    | .error e =>
      if isRateLimit e = true ∧ 0 < rem then
        let w := 2 ^ i * 1000 + jitter i
        let rest := withRetryLoop fn jitter (i + 1) rem (some e)
        { result := rest.result, waits := w :: rest.waits, calls := rest.calls + 1 }
      else
        { result := .error e, waits := [], calls := 1 }

/-- The wrapper `withRetry(fn, maxRetries)` from `src/services/geminiService.ts`
(the source default for `maxRetries` is 3). -/
def withRetry {T : Type} (fn : Nat → Except JsError T) (jitter : Nat → Nat)
    (maxRetries : Nat) : RetryRun T :=
  withRetryLoop fn jitter 0 maxRetries none

/-! Sanity checks of the loop on tiny concrete runs. -/

example :
    (withRetry (fun _ => (.ok 7 : Except JsError Nat)) (fun _ => 0) 3).result = .ok 7 := rfl

example :
    (withRetry (fun i => if i < 1 then .error { message := some "quota", status := none }
        else (.ok 7 : Except JsError Nat)) (fun _ => 3) 3).waits = [1003] := by
  decide

/-! ## Behaviour of the retry loop -/

/-- If the operation fails with a rate-limit error on attempts `i..i+k-1`
and succeeds on attempt `i+k`, with `k` strictly below the remaining
iteration budget, the loop returns the success value after `k` waits of
`2^(i+j)*1000 + jitter (i+j)` milliseconds each, having invoked the
operation `k+1` times. -/
theorem withRetryLoop_success {T : Type} (fn : Nat → Except JsError T) (jitter : Nat → Nat) :
    ∀ (k i rem : Nat) (last : Option JsError) (v : T), k < rem →
      (∀ j, j < k → ∃ e, fn (i + j) = .error e ∧ isRateLimit e = true) →
      fn (i + k) = .ok v →
      withRetryLoop fn jitter i rem last =
        { result := .ok v,
          waits := (List.range k).map (fun j => 2 ^ (i + j) * 1000 + jitter (i + j)),
          calls := k + 1 } := by
  intro k
  induction k with
  | zero =>
    intro i rem last v hk hfail hsucc
    cases rem with
    | zero => omega
    | succ r =>
      simp only [Nat.add_zero] at hsucc
      simp [withRetryLoop, hsucc]
  | succ k ih =>
    intro i rem last v hk hfail hsucc
    cases rem with
    | zero => omega
    | succ r =>
      obtain ⟨e0, he0, hrl⟩ := hfail 0 (Nat.succ_pos k)
      simp only [Nat.add_zero] at he0
      have hr : 0 < r := by omega
      have ihh := ih (i + 1) r (some e0) v (by omega)
        (fun j hj => by
          have hx := hfail (j + 1) (by omega)
          have harith : i + (j + 1) = i + 1 + j := by omega
          rwa [harith] at hx)
        (by
          have harith : i + (k + 1) = i + 1 + k := by omega
          rwa [harith] at hsucc)
      simp only [withRetryLoop, he0]
      rw [if_pos ⟨hrl, hr⟩, ihh]
      have hw : (List.range (k + 1)).map (fun j => 2 ^ (i + j) * 1000 + jitter (i + j)) =
          (2 ^ i * 1000 + jitter i) ::
            (List.range k).map (fun j => 2 ^ (i + 1 + j) * 1000 + jitter (i + 1 + j)) := by
        rw [List.range_succ_eq_map]
        simp only [List.map_cons, List.map_map, Nat.add_zero, Function.comp_def]
        refine congrArg (List.cons _) ?_
        apply List.map_congr_left
        intro a _
        have harith : i + (a + 1) = i + 1 + a := by omega
        rw [harith]
      rw [hw]

/-- If every attempt in the remaining budget fails with a rate-limit
error, the loop propagates the error of the final attempt. -/
theorem withRetryLoop_allFail {T : Type} (fn : Nat → Except JsError T) (jitter : Nat → Nat) :
    ∀ (rem i : Nat) (last : Option JsError) (e : JsError), 0 < rem →
      (∀ j, j < rem → ∃ e', fn (i + j) = .error e' ∧ isRateLimit e' = true) →
      fn (i + (rem - 1)) = .error e →
      (withRetryLoop fn jitter i rem last).result = .error e := by
  intro rem
  induction rem with
  | zero => omega
  | succ r ih =>
    intro i last e _ hfail hlast
    obtain ⟨e0, he0, hrl⟩ := hfail 0 (by omega)
    simp only [Nat.add_zero] at he0
    cases r with
    | zero =>
      norm_num at hlast
      rw [he0] at hlast
      have : e0 = e := Except.error.inj hlast
      subst this
      simp only [withRetryLoop, he0]
      rw [if_neg]
      intro hc
      exact Nat.lt_irrefl 0 hc.2
    | succ r' =>
      simp only [withRetryLoop, he0]
      rw [if_pos ⟨hrl, by omega⟩]
      apply ih (i + 1) (some e0) e (by omega)
      · intro j hj
        have hx := hfail (j + 1) (by omega)
        have harith : i + (j + 1) = i + 1 + j := by omega
        rwa [harith] at hx
      · have harith : i + (r' + 1 + 1 - 1) = i + 1 + (r' + 1 - 1) := by omega
        rwa [harith] at hlast

/-! ## Claim C1 -/

/-- Claim C1: for an operation wrapped by `withRetry` with maximum attempt
count `maxRetries` that fails with a rate-limit error on exactly its first
`k` invocations, `k < maxRetries`, and succeeds on invocation `k+1`, the
wrapper returns the success value and performs exactly `k` waits; the wait
after failed attempt `i` is `2^i * 1000` ms plus the jitter drawn for that
attempt (`Math.random() * 1000`, below 1000 ms), hence at least
`2^i` seconds pre-jitter; and if all `maxRetries` invocations fail with
rate-limit errors, the wrapper propagates the last error. -/
theorem claim_C1_withRetry_backoff {T : Type} (fn : Nat → Except JsError T)
    (jitter : Nat → Nat) (maxRetries : Nat)
    (hjit : ∀ i, jitter i < 1000) :
    (∀ (k : Nat) (v : T), k < maxRetries →
      (∀ j, j < k → ∃ e, fn j = .error e ∧ isRateLimit e = true) →
      fn k = .ok v →
      (withRetry fn jitter maxRetries).result = .ok v ∧
      (withRetry fn jitter maxRetries).waits.length = k ∧
      (∀ j, j < k → (withRetry fn jitter maxRetries).waits[j]? =
        some (2 ^ j * 1000 + jitter j)) ∧
      (∀ w ∈ (withRetry fn jitter maxRetries).waits,
        ∃ j, j < k ∧ 2 ^ j * 1000 ≤ w ∧ w < 2 ^ j * 1000 + 1000)) ∧
    (∀ e : JsError, 0 < maxRetries →
      (∀ j, j < maxRetries → ∃ e', fn j = .error e' ∧ isRateLimit e' = true) →
      fn (maxRetries - 1) = .error e →
      (withRetry fn jitter maxRetries).result = .error e) := by
  constructor
  · intro k v hk hfail hsucc
    have hrun := withRetryLoop_success fn jitter k 0 maxRetries none v hk
      (fun j hj => by simpa using hfail j hj) (by simpa using hsucc)
    unfold withRetry
    rw [hrun]
    refine ⟨rfl, by simp, ?_, ?_⟩
    · intro j hj
      simp [List.getElem?_map, List.getElem?_range hj]
    · intro w hw
      simp only [List.mem_map, List.mem_range] at hw
      obtain ⟨j, hj, hwj⟩ := hw
      simp only [Nat.zero_add] at hwj
      refine ⟨j, hj, ?_, ?_⟩
      · omega
      · have := hjit j
        omega
  · intro e hpos hfail hlast
    have := withRetryLoop_allFail fn jitter maxRetries 0 none e hpos
      (fun j hj => by simpa using hfail j hj) (by simpa using hlast)
    exact this

/-- Operation used in the witness for C1: two rate-limit failures, then
success. -/
def c1Err : JsError := { message := some "429 RESOURCE_EXHAUSTED", status := none }

/-- Witness operation for C1. -/
def c1Fn : Nat → Except JsError Nat :=
  fun i => if i < 2 then .error c1Err else .ok 42

/-- Witness jitter draw for C1. -/
def c1Jitter : Nat → Nat := fun _ => 500

/-- Witness for C1 at a concrete run: `maxRetries = 3`, two rate-limit
failures then success, jitter 500 ms each time. -/
theorem claim_C1_witness :
    (withRetry c1Fn c1Jitter 3).result = .ok 42 ∧
    (withRetry c1Fn c1Jitter 3).waits.length = 2 ∧
    (withRetry c1Fn c1Jitter 3).waits[0]? = some 1500 ∧
    (withRetry c1Fn c1Jitter 3).waits[1]? = some 2500 := by
  have h := (claim_C1_withRetry_backoff c1Fn c1Jitter 3 (fun _ => by norm_num [c1Jitter])).1
    2 42 (by norm_num)
    (fun j hj => ⟨c1Err, by
      constructor
      · show (if j < 2 then (.error c1Err : Except JsError Nat) else .ok 42) = .error c1Err
        rw [if_pos hj]
      · decide⟩)
    (by rfl)
  refine ⟨h.1, h.2.1, ?_, ?_⟩
  · have := h.2.2.1 0 (by norm_num)
    simpa [c1Jitter] using this
  · have := h.2.2.1 1 (by norm_num)
    simpa [c1Jitter] using this

/-! ## Claim C2 -/

/-- Claim C2: `withRetry` classifies a failure as a rate-limit error
exactly when the error has status 429 or its message contains the
substring "429" or the substring "quota"; and an operation whose first
invocation fails with an error not so classified has that error propagated
immediately: zero waits and exactly one invocation. -/
theorem claim_C2_nonRateLimit_immediate {T : Type} (fn : Nat → Except JsError T)
    (jitter : Nat → Nat) (maxRetries : Nat) (e : JsError) :
    (isRateLimit e = true ↔
      (e.status = some 429 ∨ "429".data <:+: (errorTextOf e).data ∨
        "quota".data <:+: (errorTextOf e).data)) ∧
    (0 < maxRetries → fn 0 = .error e → isRateLimit e = false →
      (withRetry fn jitter maxRetries).result = .error e ∧
      (withRetry fn jitter maxRetries).waits = [] ∧
      (withRetry fn jitter maxRetries).calls = 1) := by
  constructor
  · unfold isRateLimit containsSub
    simp only [Bool.or_eq_true, decide_eq_true_eq, beq_iff_eq]
    tauto
  · intro hpos h0 hnrl
    cases maxRetries with
    | zero => omega
    | succ m =>
      have hrun : withRetry fn jitter (m + 1) =
          { result := .error e, waits := [], calls := 1 } := by
        unfold withRetry
        simp only [withRetryLoop, h0]
        rw [if_neg]
        intro hc
        rw [hnrl] at hc
        exact Bool.false_ne_true hc.1
      rw [hrun]
      exact ⟨rfl, rfl, rfl⟩

/-- Error used in the witness for C2: not a rate-limit signature. -/
def c2Err : JsError := { message := some "network unreachable", status := some 500 }

/-- Witness for C2 at a concrete run: a non-rate-limit failure is
propagated on the first attempt with zero waits and one invocation. -/
theorem claim_C2_witness :
    (withRetry (fun _ => (.error c2Err : Except JsError Nat)) (fun _ => 0) 3).result
      = .error c2Err ∧
    (withRetry (fun _ => (.error c2Err : Except JsError Nat)) (fun _ => 0) 3).waits = [] ∧
    (withRetry (fun _ => (.error c2Err : Except JsError Nat)) (fun _ => 0) 3).calls = 1 :=
  (claim_C2_nonRateLimit_immediate (fun _ => (.error c2Err : Except JsError Nat))
    (fun _ => 0) 3 c2Err).2 (by norm_num) rfl (by decide)

/-! ## JSON values and `JSON.parse`

`discoverLeads` feeds the regex match into `JSON.parse`.  The parser below
models `JSON.parse` on the grammar of RFC 8259: whitespace-tolerant
values, strings with escapes, numbers kept as their literal token, arrays
and objects.  Fuel makes the recursion structural; the fuel supplied at
the top is more than the recursion can consume on an input of that
length. -/

/-- A parsed JSON value.  Numeric literals are kept as raw tokens because
no claim depends on numeric evaluation. -/
inductive Json where
  | null
  | bool (b : Bool)
  | num (lit : String)
  | str (s : String)
  | arr (elems : List Json)
  | obj (fields : List (String × Json))
deriving Repr

/-- JSON whitespace. -/
def isWsChar (c : Char) : Bool :=
  c = ' ' || c = Char.ofNat 9 || c = Char.ofNat 10 || c = Char.ofNat 13

/-- Skip leading JSON whitespace. -/
def skipWs (l : List Char) : List Char := l.dropWhile isWsChar

/-- The double-quote character. -/
def qMark : Char := Char.ofNat 34

/-- Hexadecimal digit test for unicode escapes. -/
def isHexDigitCh (c : Char) : Bool :=
  c.isDigit || ('a' ≤ c && c ≤ 'f') || ('A' ≤ c && c ≤ 'F')

/-- Value of a hexadecimal digit. -/
def hexVal (c : Char) : Nat :=
  if c.isDigit then c.toNat - 48
  else if 'a' ≤ c && c ≤ 'f' then c.toNat - 87
  else if 'A' ≤ c && c ≤ 'F' then c.toNat - 55
  else 0

/-- Translation of a single-character string escape. -/
def escCharOf (c : Char) : Option Char :=
  if c = qMark then some qMark
  else if c = '\\' then some '\\'
  else if c = '/' then some '/'
  else if c = 'b' then some (Char.ofNat 8)
  else if c = 'f' then some (Char.ofNat 12)
  else if c = 'n' then some (Char.ofNat 10)
  else if c = 'r' then some (Char.ofNat 13)
  else if c = 't' then some (Char.ofNat 9)
  else none

/-- Parse the body of a string literal after the opening quote, returning
the decoded characters and the rest of the input. -/
def parseStrBody (fuel : Nat) (l : List Char) : Except String (List Char × List Char) :=
  match fuel, l with
  | 0, _ => .error "recursion budget exhausted"
  | _, [] => .error "unterminated string literal"
  | fuel + 1, c :: rest =>
    if c = qMark then .ok ([], rest)
    else if c = '\\' then
      match rest with
      | [] => .error "bad escape"
      | e :: rest2 =>
        if e = 'u' then
          match rest2 with
          | h1 :: h2 :: h3 :: h4 :: rest3 =>
            if isHexDigitCh h1 && isHexDigitCh h2 && isHexDigitCh h3 && isHexDigitCh h4 then
              match parseStrBody fuel rest3 with
              | .ok (cs, rem) =>
                .ok (Char.ofNat
                  (((hexVal h1 * 16 + hexVal h2) * 16 + hexVal h3) * 16 + hexVal h4) :: cs, rem)
              | .error msg => .error msg
            else .error "bad unicode escape"
          | _ => .error "bad unicode escape"
        else
          match escCharOf e with
          | some ec =>
            match parseStrBody fuel rest2 with
            | .ok (cs, rem) => .ok (ec :: cs, rem)
            | .error msg => .error msg
          | none => .error "bad escape"
    else if c.toNat < 32 then .error "control character in string"
    else
      match parseStrBody fuel rest with
      | .ok (cs, rem) => .ok (c :: cs, rem)
      | .error msg => .error msg

/-- Parse an optional exponent part of a number literal. -/
def parseExpPart (l : List Char) : Except String (List Char × List Char) :=
  match l with
  | c :: rest =>
    if c = 'e' || c = 'E' then
      let signSplit : List Char × List Char :=
        match rest with
        | s :: r2 => if s = '+' || s = '-' then ([s], r2) else ([], rest)
        | [] => ([], rest)
      let ds := signSplit.2.takeWhile Char.isDigit
      if ds.isEmpty then .error "bad exponent"
      else .ok (c :: (signSplit.1 ++ ds), signSplit.2.dropWhile Char.isDigit)
    else .ok ([], l)
  | [] => .ok ([], l)

/-- Parse an optional fraction part of a number literal. -/
def parseFracPart (l : List Char) : Except String (List Char × List Char) :=
  match l with
  | c :: rest =>
    if c = '.' then
      let ds := rest.takeWhile Char.isDigit
      if ds.isEmpty then .error "bad fraction"
      else .ok (c :: ds, rest.dropWhile Char.isDigit)
    else .ok ([], l)
  | [] => .ok ([], l)

/-- Parse a number literal token. -/
def parseNumberTok (l : List Char) : Except String (Json × List Char) :=
  let signSplit : List Char × List Char :=
    match l with
    | c :: r => if c = '-' then ([c], r) else ([], l)
    | [] => ([], l)
  match signSplit.2 with
  | c :: _ =>
    if c.isDigit then
      let ip := signSplit.2.takeWhile Char.isDigit
      let r1 := signSplit.2.dropWhile Char.isDigit
      if ip.length > 1 && c = '0' then .error "bad number literal"
      else
        match parseFracPart r1 with
        | .error msg => .error msg
        | .ok (fp, r2) =>
          match parseExpPart r2 with
          | .error msg => .error msg
          | .ok (ep, r3) => .ok (.num (String.mk (signSplit.1 ++ ip ++ fp ++ ep)), r3)
    else .error "bad number literal"
  | [] => .error "bad number literal"

/-- Drop an expected literal such as `true`/`false`/`null`. -/
def dropLit (lit : List Char) (l : List Char) : Option (List Char) :=
  if lit.isPrefixOf l then some (l.drop lit.length) else none

mutual

/-- Parse one JSON value starting at the first character of `l`. -/
def parseValue : Nat → List Char → Except String (Json × List Char)
  | 0, _ => .error "recursion budget exhausted"
  | fuel + 1, l =>
    match l with
    | [] => .error "unexpected end of input"
    | c :: rest =>
      if c = qMark then
        match parseStrBody fuel rest with
        | .ok (cs, rem) => .ok (.str (String.mk cs), rem)
        | .error msg => .error msg
      else if c = '[' then
        match skipWs rest with
        | c2 :: rest2 =>
          if c2 = ']' then .ok (.arr [], rest2)
          else
            match parseElems fuel (skipWs rest) with
            | .ok (xs, rem) => .ok (.arr xs, rem)
            | .error msg => .error msg
        | [] => .error "unterminated array"
      else if c = '{' then
        match skipWs rest with
        | c2 :: rest2 =>
          if c2 = '}' then .ok (.obj [], rest2)
          else
            match parseMembers fuel (skipWs rest) with
            | .ok (fs, rem) => .ok (.obj fs, rem)
            | .error msg => .error msg
        | [] => .error "unterminated object"
      else if c = 't' then
        match dropLit ['t', 'r', 'u', 'e'] l with
        | some rem => .ok (.bool true, rem)
        | none => .error "bad literal"
      else if c = 'f' then
        match dropLit ['f', 'a', 'l', 's', 'e'] l with
        | some rem => .ok (.bool false, rem)
        | none => .error "bad literal"
      else if c = 'n' then
        match dropLit ['n', 'u', 'l', 'l'] l with
        | some rem => .ok (.null, rem)
        | none => .error "bad literal"
      else if c = '-' || c.isDigit then parseNumberTok l
      else .error "unexpected character"

/-- Parse the non-empty element list of an array, consuming the closing
bracket. -/
def parseElems : Nat → List Char → Except String (List Json × List Char)
  | 0, _ => .error "recursion budget exhausted"
  | fuel + 1, l =>
    match parseValue fuel l with
    | .error pmsg => .error pmsg
    | .ok (v, afterVal) =>
      match skipWs afterVal with
      | c :: r2 =>
        if c = ',' then
          match parseElems fuel (skipWs r2) with
          | .ok (xs, rem) => .ok (v :: xs, rem)
          | .error msg => .error msg
        else if c = ']' then .ok ([v], r2)
        else .error "expected comma or close bracket"
      | [] => .error "unterminated array"

/-- Parse the non-empty member list of an object, consuming the closing
brace. -/
def parseMembers : Nat → List Char →
    Except String (List (String × Json) × List Char)
  | 0, _ => .error "recursion budget exhausted"
  | fuel + 1, l =>
    match l with
    | c :: rest =>
      if c = qMark then
        match parseStrBody fuel rest with
        | .error msg => .error msg
        | .ok (key, r1) =>
          match skipWs r1 with
          | c2 :: r2 =>
            if c2 = ':' then
              match parseValue fuel (skipWs r2) with
              | .error msg => .error msg
              | .ok (v, r3) =>
                match skipWs r3 with
                | c3 :: r4 =>
                  if c3 = ',' then
                    match parseMembers fuel (skipWs r4) with
                    | .ok (fs, rem) => .ok ((String.mk key, v) :: fs, rem)
                    | .error msg => .error msg
                  else if c3 = '}' then .ok ([(String.mk key, v)], r4)
                  else .error "expected comma or close brace"
                | [] => .error "unterminated object"
            else .error "expected colon"
          | [] => .error "unterminated object"
      else .error "expected string key"
    | [] => .error "unterminated object"

end

/-- Model of `JSON.parse`: parse a complete JSON document, rejecting trailing
content. -/
def jsonParse (s : String) : Except String Json :=
  match parseValue (2 * s.data.length + 16) (skipWs s.data) with
  | .ok (v, rest) =>
    if (skipWs rest).isEmpty then .ok v
    else .error "unexpected trailing characters"
  | .error msg => .error msg

/-! ## The discovery response scan `text.match(/\[[\s\S]*\]/)`

The regex is greedy: a match, when it exists, runs from the first `[` of
the text to the last `]`, and exists exactly when some `]` occurs after
some `[`. -/

/-- Longest prefix of the input ending at its last `]`, if any. -/
def takeToLastClose : List Char → Option (List Char)
  | [] => none
  | c :: rest =>
    match takeToLastClose rest with
    | some body => some (c :: body)
    | none => if c = ']' then some [c] else none

/-- The greedy match of `/\[[\s\S]*\]/`: scan to the first `[`, then take
through the last `]` after it. -/
def matchGreedyArray : List Char → Option (List Char)
  | [] => none
  | c :: rest =>
    if c = '[' then
      match takeToLastClose rest with
      | some body => some (c :: body)
      | none => none
    else matchGreedyArray rest

/-- The regex match producing the matched substring of the response text. -/
def extractJsonArray (text : String) : Option String :=
  (matchGreedyArray text.data).map String.mk

/-- The response handling of `discoverLeads`: match the array-shaped
regex; on a match, `JSON.parse` it (a parse failure throws); with no
match, warn and return the empty list. -/
def parseDiscoveryResponse (text : String) : Except String (List Json) :=
  match extractJsonArray text with
  | some s =>
    match jsonParse s with
    | .ok (.arr xs) => .ok xs
    | .ok _ => .error "matched text is not an array"
    | .error msg => .error msg
  | none => .ok []

/-- The client `discoverLeads` composed with the retry wrapper: attempt `i` receives
response text `responses i`; a parse failure is thrown as an error whose
message is the parse message (the source throws the `JSON.parse`
SyntaxError). -/
def discoverLeads (responses : Nat → String) (jitter : Nat → Nat) (maxRetries : Nat) :
    RetryRun (List Json) :=
  withRetry (fun i =>
    match parseDiscoveryResponse (responses i) with
    | .ok xs => .ok xs
    | .error msg => .error { message := some msg, status := none }) jitter maxRetries

example : extractJsonArray "ab [1] cd [2] ef" = some "[1] cd [2]" := rfl
example : extractJsonArray "] no [ match" = none := rfl
example : parseDiscoveryResponse "pre [1, 2] post" = .ok [Json.num "1", Json.num "2"] := rfl

/-- A list without `]` has no prefix ending at a `]`. -/
theorem takeToLastClose_eq_none (l : List Char) (h : ']' ∉ l) :
    takeToLastClose l = none := by
  induction l with
  | nil => rfl
  | cons c rest ih =>
    simp only [List.mem_cons, not_or] at h
    simp only [takeToLastClose, ih h.2]
    rw [if_neg (fun hc => h.1 hc.symm)]

/-- If no `]` occurs after any `[`, the greedy regex does not match. -/
theorem matchGreedyArray_eq_none (l : List Char)
    (h : ∀ i, i < l.length → ∀ j, j < l.length →
      ¬(i < j ∧ l[i]? = some '[' ∧ l[j]? = some ']')) :
    matchGreedyArray l = none := by
  induction l with
  | nil => rfl
  | cons c rest ih =>
    by_cases hc : c = '['
    · subst hc
      have hmem : ']' ∉ rest := by
        intro hmem
        obtain ⟨k, hk⟩ := List.mem_iff_getElem?.mp hmem
        have hklt : k < rest.length := by
          by_contra hge
          rw [List.getElem?_eq_none (by omega)] at hk
          exact Option.noConfusion hk
        exact h 0 (by simp) (k + 1) (by simp; omega)
          ⟨by omega, by simp, by simpa using hk⟩
      simp only [matchGreedyArray, if_pos rfl, takeToLastClose_eq_none rest hmem]
      simp
    · simp only [matchGreedyArray, if_neg hc]
      apply ih
      intro i hi j hj hcon
      exact h (i + 1) (by simp; omega) (j + 1) (by simp; omega)
        ⟨by omega, by simpa using hcon.2.1, by simpa using hcon.2.2⟩

/-! ## Claim C4 -/

/-- Claim C4: a discovery response text with no bracket region (no `[`
followed later by `]`) makes `discoverLeads` return the empty list rather
than fail. -/
theorem claim_C4_no_array_returns_empty (text : String)
    (h : ∀ i, i < text.data.length → ∀ j, j < text.data.length →
      ¬(i < j ∧ text.data[i]? = some '[' ∧ text.data[j]? = some ']')) :
    parseDiscoveryResponse text = .ok [] := by
  unfold parseDiscoveryResponse extractJsonArray
  rw [matchGreedyArray_eq_none text.data h]
  rfl

/-- Witness for C4: a concrete bracket-free response yields the empty
candidate list. -/
theorem claim_C4_witness : parseDiscoveryResponse "no json here" = .ok [] :=
  claim_C4_no_array_returns_empty "no json here" (by decide)

/-! ## Claim C3

The claim as stated is false: the regex `/\[[\s\S]*\]/` is greedy, so the
extracted substring runs from the first `[` to the LAST `]` of the whole
text.  When the text contains a valid JSON array followed by further
brackets, the greedy span is not valid JSON, `JSON.parse` throws, and
`discoverLeads` fails instead of returning the first array.  The amended
claim: the span from the first `[` to the last `]` is extracted; if that
span is a syntactically valid JSON array, the returned candidate list is
exactly its element list (so the count equals that array length and every
field passes through unchanged); if the span is not valid JSON, the parse
error propagates. -/

/-- Discovery response exhibiting the counterexample to claim C3 as
stated: it contains the syntactically valid JSON array substring
`[1, 2]`, yet discovery fails. -/
def c3BadText : String := "[1, 2] and also [3]"

/-- Counterexample to claim C3 as stated: `c3BadText` contains the valid
JSON array substring `[1, 2]` (of length 2), but the greedy match spans
`[1, 2] and also [3]`, `JSON.parse` rejects it, and `discoverLeads`
propagates the parse failure immediately (no candidate list of length 2
is returned, and the thrown error is not retried). -/
theorem claim_C3_counterexample :
    jsonParse "[1, 2]" = .ok (Json.arr [Json.num "1", Json.num "2"]) ∧
    ("[1, 2]".data <:+: c3BadText.data) ∧
    extractJsonArray c3BadText = some "[1, 2] and also [3]" ∧
    parseDiscoveryResponse c3BadText = .error "unexpected trailing characters" ∧
    (discoverLeads (fun _ => c3BadText) (fun _ => 0) 3).result =
      .error { message := some "unexpected trailing characters", status := none } ∧
    (discoverLeads (fun _ => c3BadText) (fun _ => 0) 3).waits = [] :=
  ⟨rfl, ⟨[], " and also [3]".data, rfl⟩, rfl, rfl, rfl, rfl⟩

/-- Claim C3 (amended): when the regex matches (span from the first `[`
to the last `]`) and that span parses as a JSON array, the candidate list
is exactly the element list of that array; when the span is not valid
JSON, the parse error propagates out of discovery. -/
theorem claim_C3_extracted_array_parses (text s : String)
    (hs : extractJsonArray text = some s) :
    (∀ xs, jsonParse s = .ok (Json.arr xs) → parseDiscoveryResponse text = .ok xs) ∧
    (∀ msg, jsonParse s = .error msg → parseDiscoveryResponse text = .error msg) := by
  constructor
  · intro xs hp
    simp only [parseDiscoveryResponse, hs, hp]
  · intro msg hp
    simp only [parseDiscoveryResponse, hs, hp]

/-- Witness for C3 (amended) on a concrete response: the matched span is
a valid one-element JSON array, and discovery returns exactly its
element, fields untouched. -/
theorem claim_C3_witness :
    parseDiscoveryResponse "Here you go: [\x7b\"businessName\": \"Cafe One\"\x7d] Thanks"
      = .ok [Json.obj [("businessName", Json.str "Cafe One")]] :=
  (claim_C3_extracted_array_parses
    "Here you go: [\x7b\"businessName\": \"Cafe One\"\x7d] Thanks"
    "[\x7b\"businessName\": \"Cafe One\"\x7d]" rfl).1
    [Json.obj [("businessName", Json.str "Cafe One")]] rfl

/-! ## Data model (src/types.ts)

String-typed optional fields of `Partial<Lead>` are modelled as
`Option String`; JavaScript `||` defaulting also replaces an empty string,
captured by `jsOrStr`. -/

/-- Priority score enumeration. -/
inductive Score where
  | high
  | medium
  | low
deriving DecidableEq, Repr

/-- Lead lifecycle status. -/
inductive LeadStatus where
  | new
  | qualified
  | contacted
  | responded
  | unsubscribed
deriving DecidableEq, Repr

/-- A persisted `Lead` record. -/
structure Lead where
  id : String
  businessName : String
  industry : String
  city : String
  website : String
  phoneNumber : Option String
  email : Option String
  rationale : Option String
  priorityScore : Option Score
  priorityReason : Option String
  status : LeadStatus
  addedAt : String
deriving DecidableEq, Repr

/-- A discovered candidate (`Partial<Lead>`), fields best-effort. -/
structure Candidate where
  businessName : Option String
  industry : Option String
  city : Option String
  website : Option String
  phoneNumber : Option String
  rationale : Option String
deriving DecidableEq, Repr

/-- Search parameters of the discovery form. -/
structure SearchParams where
  industry : String
  city : String
deriving DecidableEq, Repr

/-- A qualification result `{score, reason}`. -/
structure Qual where
  score : Score
  reason : String
deriving DecidableEq, Repr

/-- Campaign statistics (`CampaignStats`). -/
structure CampaignStats where
  sent : Nat
  opened : Nat
  replied : Nat
  clicks : Nat
  dailyLimitUsed : Nat
deriving DecidableEq, Repr

/-- JavaScript `x || d` for an optional string `x`: a missing or empty
string falls back to the default. -/
def jsOrStr : Option String → String → String
  | none, d => d
  | some s, d => if s = "" then d else s

/-! ## Lead discovery component state (src/components/LeadDiscovery.tsx)

`selected` models the JavaScript `Set` of selected indices, which
iterates in insertion order: `toggleSelection` appends, `Set.delete`
preserves the order of the remaining elements, and `Array.from` reads
that order back. -/

/-- The shared state the discovery handlers act on: the persisted lead
store (`existingLeads`, appended to via `onAddLeads`), the pending
discovered-candidate list, and the selected-index set in insertion
order. -/
structure DiscoveryState where
  store : List Lead
  discovered : List Candidate
  selected : List Nat
deriving DecidableEq, Repr

/-- Lower-casing modelled character-wise (the names compared by the
claims are ASCII). -/
def strToLower (s : String) : String := String.mk (s.data.map Char.toLower)

/-- The duplicate test of `LeadDiscovery` (`isDuplicate`): false for a
missing or empty name (both falsy), otherwise a case-insensitive
business-name match against the store. -/
def isDuplicate (existingLeads : List Lead) (leadName : Option String) : Bool :=
  match leadName with
  | none => false
  | some s =>
    if s = "" then false
    else existingLeads.any (fun l => strToLower l.businessName == strToLower s)

/-- The `Lead` record constructed by `handleAddLead`/`handleBulkAdd` from
a raw candidate, a qualification result, a freshly generated identifier
and the add timestamp. -/
def mkLeadFromCandidate (freshId now : String) (params : SearchParams)
    (raw : Candidate) (q : Qual) : Lead :=
  { id := freshId
    businessName := jsOrStr raw.businessName "Unknown"
    industry := jsOrStr raw.industry params.industry
    city := jsOrStr raw.city params.city
    website := jsOrStr raw.website "Not listed"
    phoneNumber := some (jsOrStr raw.phoneNumber "Not listed")
    email := none
    rationale := raw.rationale
    priorityScore := some q.score
    priorityReason := some q.reason
    status := .new
    addedAt := now }

/-- The handler `handleAddLead(index)`: qualify the candidate at `index` (outcome
`qres`); on success append the constructed lead to the store, drop the
candidate from the pending list and reset the selection; on failure (or a
missing index) leave the state unchanged. -/
def handleAddLead (st : DiscoveryState) (params : SearchParams) (idx : Nat)
    (qres : Except JsError Qual) (freshId now : String) : DiscoveryState :=
  match st.discovered[idx]? with
  | none => st
  | some raw =>
    match qres with
    | .error _ => st
    | .ok q =>
      { store := st.store ++ [mkLeadFromCandidate freshId now params raw q]
        discovered := st.discovered.eraseIdx idx
        selected := [] }

/-- The handler `toggleSelection(index)`: a duplicate candidate leaves the selection
unchanged; otherwise the index is removed if present, else appended.
`none` models the TypeError the source would raise on an out-of-range
index (unreachable from the rendered list). -/
def toggleSelection (st : DiscoveryState) (idx : Nat) : Option DiscoveryState :=
  match st.discovered[idx]? with
  | none => none
  | some c =>
    if isDuplicate st.store c.businessName then some st
    else if st.selected.contains idx then
      some { st with selected := st.selected.filter (fun j => !(j == idx)) }
    else some { st with selected := st.selected ++ [idx] }

/-- The indices of non-duplicate candidates, as computed by
`toggleSelectAll`. -/
def availableIndices (st : DiscoveryState) : List Nat :=
  ((st.discovered.enum.filter
    (fun p => !isDuplicate st.store p.2.businessName)).map (fun p => p.1))

/-- The handler `toggleSelectAll`: clear the selection when its size already equals
the number of available candidates, else select exactly the available
(non-duplicate) indices. -/
def toggleSelectAll (st : DiscoveryState) : DiscoveryState :=
  if st.selected.length = (availableIndices st).length then
    { st with selected := [] }
  else { st with selected := availableIndices st }

/-! ## Bulk add (`handleBulkAdd`)

The loop body is recorded as a trace of events: one `qualifyCall` per
attempted candidate, and the fixed `setTimeout(r, 200)` pause after each
successful qualification. -/

/-- An observable step of the bulk-add loop. -/
inductive BulkEvent where
  | qualifyCall (idx : Nat)
  | pause (ms : Nat)
deriving DecidableEq, Repr

/-- The `for (const idx of indices)` loop of `handleBulkAdd`: walk the
selected indices in order, skip missing candidates silently, qualify each
present one (`qres idx`), collect the constructed leads of the successful
qualifications in order, and pause 200 ms after each success. -/
def bulkCollect (discovered : List Candidate) (params : SearchParams)
    (qres : Nat → Except JsError Qual) (ids : Nat → String) (now : String) :
    List Nat → List Lead × List BulkEvent
  | [] => ([], [])
  | idx :: rest =>
    let restRes := bulkCollect discovered params qres ids now rest
    match discovered[idx]? with
    | none => restRes
    | some raw =>
      match qres idx with
      | .ok q =>
        (mkLeadFromCandidate (ids idx) now params raw q :: restRes.1,
          BulkEvent.qualifyCall idx :: BulkEvent.pause 200 :: restRes.2)
      | .error _ => (restRes.1, BulkEvent.qualifyCall idx :: restRes.2)

/-- The pending-list update of a committed bulk add: keep the candidates
whose index is not selected. -/
def filterNotSelected (sel : List Nat) (l : List Candidate) : List Candidate :=
  (l.enum.filter (fun p => !(sel.contains p.1))).map (fun p => p.2)

/-- The handler `handleBulkAdd`: no-op on an empty selection; otherwise run the
sequential loop, and only when at least one lead qualified, commit the
batch to the store, drop all selected candidates from the pending list
and clear the selection. -/
def handleBulkAdd (st : DiscoveryState) (params : SearchParams)
    (qres : Nat → Except JsError Qual) (ids : Nat → String) (now : String) :
    DiscoveryState × List BulkEvent :=
  if st.selected.isEmpty then (st, [])
  else
    let r := bulkCollect st.discovered params qres ids now st.selected
    if r.1.isEmpty then (st, r.2)
    else
      ({ store := st.store ++ r.1
         discovered := filterNotSelected st.selected st.discovered
         selected := [] }, r.2)

/-! ## Campaign finish (src/unnamed/part_000 `handleSendEmails`,
src/unnamed/part_001 `handleFinishCampaign`)

`sentIds` models the `sentStatus` record of the outreach view: ids are
only ever set to `true` by `handleMarkAsSent`, so the record is a set of
marked lead ids. -/

/-- The handler `handleSendEmails(targetLeads)` of the application shell: mark every
store lead whose id occurs in `targetLeads` as `Contacted`, and increment
`sent` and `dailyLimitUsed` by the number of target leads. -/
def handleSendEmails (leads : List Lead) (stats : CampaignStats)
    (targetLeads : List Lead) : List Lead × CampaignStats :=
  (leads.map (fun l =>
      if targetLeads.any (fun tl => tl.id == l.id) then
        { l with status := .contacted }
      else l),
    { stats with
        sent := stats.sent + targetLeads.length
        dailyLimitUsed := stats.dailyLimitUsed + targetLeads.length })

/-- The handler `handleFinishCampaign` of the outreach view: collect the session
leads marked sent and hand them to `handleSendEmails`. -/
def handleFinishCampaign (selectedLeads : List Lead) (sentIds : List String)
    (leads : List Lead) (stats : CampaignStats) : List Lead × CampaignStats :=
  let sentLeads := selectedLeads.filter (fun l => sentIds.contains l.id)
  handleSendEmails leads stats sentLeads

/-! ## Characterising the bulk loop -/

/-- Spec-side predicate: the bulk loop at `idx` finds a candidate and
qualifies it successfully. -/
def bulkSucceeds (discovered : List Candidate) (qres : Nat → Except JsError Qual)
    (idx : Nat) : Bool :=
  match discovered[idx]? with
  | none => false
  | some _ =>
    match qres idx with
    | .ok _ => true
    | .error _ => false

/-- Spec-side placeholder-free description of the lead committed for a
successfully qualified index (the fallback branches are never selected by
`bulkSucceeds`). -/
def leadForIdx (discovered : List Candidate) (params : SearchParams)
    (qres : Nat → Except JsError Qual) (ids : Nat → String) (now : String)
    (idx : Nat) : Lead :=
  match discovered[idx]? with
  | some raw =>
    match qres idx with
    | .ok q => mkLeadFromCandidate (ids idx) now params raw q
    | .error _ =>
      mkLeadFromCandidate (ids idx) now params raw { score := .low, reason := "" }
  | none =>
    mkLeadFromCandidate (ids idx) now params
      { businessName := none, industry := none, city := none, website := none,
        phoneNumber := none, rationale := none } { score := .low, reason := "" }

/-- Spec-side description of the events one loop iteration emits. -/
def bulkEventsFor (discovered : List Candidate) (qres : Nat → Except JsError Qual)
    (idx : Nat) : List BulkEvent :=
  match discovered[idx]? with
  | none => []
  | some _ =>
    match qres idx with
    | .ok _ => [BulkEvent.qualifyCall idx, BulkEvent.pause 200]
    | .error _ => [BulkEvent.qualifyCall idx]

/-- The qualification calls occurring in a bulk trace, in order. -/
def callIdxs (evts : List BulkEvent) : List Nat :=
  evts.filterMap (fun e =>
    match e with
    | .qualifyCall i => some i
    | .pause _ => none)

/-- The leads the bulk loop collects are exactly those of the
successfully qualified selected indices, in selection order. -/
theorem bulkCollect_fst (discovered : List Candidate) (params : SearchParams)
    (qres : Nat → Except JsError Qual) (ids : Nat → String) (now : String) :
    ∀ sel : List Nat,
      (bulkCollect discovered params qres ids now sel).1 =
        (sel.filter (fun idx => bulkSucceeds discovered qres idx)).map
          (leadForIdx discovered params qres ids now) := by
  intro sel
  induction sel with
  | nil => rfl
  | cons idx rest ih =>
    simp only [bulkCollect]
    cases hd : discovered[idx]? with
    | none =>
      simp [List.filter_cons, bulkSucceeds, hd, ih]
    | some raw =>
      cases hq : qres idx with
      | ok q => simp [List.filter_cons, bulkSucceeds, leadForIdx, hd, hq, ih]
      | error e => simp [List.filter_cons, bulkSucceeds, hd, hq, ih]

/-- The bulk trace is the concatenation, in selection order, of the
events of each iteration. -/
theorem bulkCollect_snd (discovered : List Candidate) (params : SearchParams)
    (qres : Nat → Except JsError Qual) (ids : Nat → String) (now : String) :
    ∀ sel : List Nat,
      (bulkCollect discovered params qres ids now sel).2 =
        (sel.map (bulkEventsFor discovered qres)).flatten := by
  intro sel
  induction sel with
  | nil => rfl
  | cons idx rest ih =>
    simp only [bulkCollect]
    cases hd : discovered[idx]? with
    | none => simp [bulkEventsFor, hd, ih]
    | some raw =>
      cases hq : qres idx with
      | ok q => simp [bulkEventsFor, hd, hq, ih]
      | error e => simp [bulkEventsFor, hd, hq, ih]

/-! ## Claim C10 -/

/-- Claim C10: when every selected candidate fails qualification, the
bulk add leaves the whole shared state (store, pending candidate list,
selection) unchanged: no batch is committed and nothing is cleared. -/
theorem claim_C10_all_fail_noop (st : DiscoveryState) (params : SearchParams)
    (qres : Nat → Except JsError Qual) (ids : Nat → String) (now : String)
    (hfail : ∀ idx ∈ st.selected, ∀ raw, st.discovered[idx]? = some raw →
      ∃ e, qres idx = .error e) :
    (handleBulkAdd st params qres ids now).1 = st := by
  have hfail' : ∀ idx ∈ st.selected, bulkSucceeds st.discovered qres idx = false := by
    intro idx hm
    unfold bulkSucceeds
    cases hd : st.discovered[idx]? with
    | none => rfl
    | some raw =>
      obtain ⟨e, he⟩ := hfail idx hm raw hd
      rw [he]
  unfold handleBulkAdd
  by_cases hemp : st.selected.isEmpty
  · simp [hemp]
  · have h1 : (bulkCollect st.discovered params qres ids now st.selected).1 = [] := by
      rw [bulkCollect_fst]
      have hf : st.selected.filter (fun idx => bulkSucceeds st.discovered qres idx) = [] :=
        List.filter_eq_nil_iff.mpr (fun a ha => by simp [hfail' a ha])
      rw [hf]
      rfl
    simp [hemp, h1]

/-- Qualification oracle for the C10 witness: every call fails with a
non-empty-response error. -/
def c10Qres : Nat → Except JsError Qual :=
  fun _ => .error { message := some "No response from qualification", status := none }

/-- Candidate list shared by the concrete bulk-add scenarios. -/
def candA : Candidate :=
  { businessName := some "A", industry := none, city := none, website := none,
    phoneNumber := none, rationale := none }

/-- Second concrete candidate. -/
def candB : Candidate :=
  { businessName := some "B", industry := none, city := none, website := none,
    phoneNumber := none, rationale := none }

/-- Third concrete candidate. -/
def candC : Candidate :=
  { businessName := some "C", industry := none, city := none, website := none,
    phoneNumber := none, rationale := none }

/-- Search parameters shared by the concrete scenarios. -/
def exParams : SearchParams := { industry := "Cafes", city := "Berlin, Germany" }

/-- Identifier generator shared by the concrete scenarios. -/
def exIds : Nat → String := fun idx => "id" ++ toString idx

/-- Concrete state for the C10 witness: two candidates, both selected. -/
def c10St : DiscoveryState :=
  { store := [], discovered := [candA, candB], selected := [0, 1] }

/-- Witness for C10: with both selected qualifications failing, the state
is returned unchanged. -/
theorem claim_C10_witness : (handleBulkAdd c10St exParams c10Qres exIds "t0").1 = c10St :=
  claim_C10_all_fail_noop c10St exParams c10Qres exIds "t0"
    (fun _ _ _ _ => ⟨{ message := some "No response from qualification", status := none }, rfl⟩)

/-! ## Claim C5

The claim as stated asserts the committed batch preserves the original
(candidate-array) relative order for every bulk add.  The selected-index
set is a JavaScript `Set` iterated in insertion order, which is the order
the user toggled the check boxes, so a selection made in the order C, A
commits C before A.  The amended claim: failing items are skipped without
aborting the batch and never reach the store; the successfully qualified
leads are committed in one batch in selection (insertion) order — which
equals the original array order whenever the selection was made in
ascending index order, as select-all does — and the selected candidates
are cleared from the pending list. -/

/-- Qualification oracle for the C5 scenario: index 1 (candidate B)
fails, all other indices succeed. -/
def c5Qres : Nat → Except JsError Qual :=
  fun idx =>
    if idx == 1 then .error { message := some "quota", status := none }
    else .ok { score := .high, reason := "r" }

/-- Concrete state for the C5 counterexample: candidates `[A, B, C]`,
selected by clicking C, then B, then A. -/
def c5St : DiscoveryState :=
  { store := [], discovered := [candA, candB, candC], selected := [2, 1, 0] }

/-- Counterexample to claim C5 as stated: with candidates `[A, B, C]`,
`B` failing, and the selection made in the order C, B, A, the committed
batch is `[C, A]` — not the original relative order `[A, C]` the claim
requires. -/
theorem claim_C5_counterexample :
    ((handleBulkAdd c5St exParams c5Qres exIds "t0").1.store.map
      (fun l => l.businessName)) = ["C", "A"] ∧
    (["C", "A"] : List String) ≠ ["A", "C"] :=
  ⟨rfl, by decide⟩

/-- Claim C5 (amended): in a bulk add over a selection containing at
least one successfully qualified item and at least one failing item, the
failing items are skipped without aborting the batch and never reach the
store: the store gains exactly the leads of the successfully qualified
selected indices, in selection (insertion) order; all selected candidates
are dropped from the pending list; and the selection is cleared. -/
theorem claim_C5_bulk_skip_failures (st : DiscoveryState) (params : SearchParams)
    (qres : Nat → Except JsError Qual) (ids : Nat → String) (now : String)
    (hsucc : ∃ idx ∈ st.selected, bulkSucceeds st.discovered qres idx = true)
    (_hfail : ∃ idx ∈ st.selected, (∃ raw, st.discovered[idx]? = some raw) ∧
      bulkSucceeds st.discovered qres idx = false) :
    (handleBulkAdd st params qres ids now).1.store =
      st.store ++ (st.selected.filter (fun idx => bulkSucceeds st.discovered qres idx)).map
        (leadForIdx st.discovered params qres ids now) ∧
    (handleBulkAdd st params qres ids now).1.discovered =
      filterNotSelected st.selected st.discovered ∧
    (handleBulkAdd st params qres ids now).1.selected = [] := by
  obtain ⟨i0, hi0mem, hi0⟩ := hsucc
  have hemp : st.selected.isEmpty = false := by
    cases hsel : st.selected with
    | nil => rw [hsel] at hi0mem; simp at hi0mem
    | cons a l => rfl
  have hval : (bulkCollect st.discovered params qres ids now st.selected).1.isEmpty
      = false := by
    rw [bulkCollect_fst]
    have hmem : i0 ∈ st.selected.filter (fun idx => bulkSucceeds st.discovered qres idx) :=
      List.mem_filter.mpr ⟨hi0mem, hi0⟩
    cases hcase : st.selected.filter (fun idx => bulkSucceeds st.discovered qres idx) with
    | nil => rw [hcase] at hmem; simp at hmem
    | cons a l => simp [hcase]
  unfold handleBulkAdd
  rw [hemp]
  simp only [Bool.false_eq_true, if_false]
  rw [hval]
  simp only [Bool.false_eq_true, if_false]
  exact ⟨by rw [bulkCollect_fst], trivial, trivial⟩

/-- Witness for C5 (amended) at the concrete scenario: the committed
batch is exactly `[C, A]`, candidate `B` (which failed) is absent, the
pending list and selection are cleared. -/
theorem claim_C5_witness :
    (handleBulkAdd c5St exParams c5Qres exIds "t0").1.store =
      c5St.store ++ ([2, 0] : List Nat).map
        (leadForIdx c5St.discovered exParams c5Qres exIds "t0") ∧
    (handleBulkAdd c5St exParams c5Qres exIds "t0").1.discovered = [] ∧
    (handleBulkAdd c5St exParams c5Qres exIds "t0").1.selected = [] := by
  have h := claim_C5_bulk_skip_failures c5St exParams c5Qres exIds "t0"
    ⟨2, by decide, by decide⟩ ⟨1, by decide, ⟨candB, by decide⟩, by decide⟩
  refine ⟨?_, ?_, h.2.2⟩
  · rw [h.1]
    decide
  · rw [h.2.1]
    decide

/-! ## Claim C6

The claim as stated asserts bulk qualification proceeds in strict array
(index) order for every selection.  The loop walks `Array.from` of the
selected-index `Set`, i.e. insertion order; selecting index 1 before
index 0 makes the loop qualify 1 before 0.  The amended claim: the
candidates are processed strictly sequentially, one qualification call at
a time, in selection (insertion) order, with the fixed 200 ms pause
emitted after each successfully qualified item. -/

/-- Qualification oracle for the C6 scenario: every call succeeds. -/
def c6Qres : Nat → Except JsError Qual := fun _ => .ok { score := .high, reason := "r" }

/-- Concrete state for the C6 counterexample: candidates `[A, B]`,
selected by clicking B first, then A. -/
def c6St : DiscoveryState :=
  { store := [], discovered := [candA, candB], selected := [1, 0] }

/-- Counterexample to claim C6 as stated: with the selection made in the
order 1, 0, the qualification calls happen at index 1 then index 0 — not
in strict array (index) order. -/
theorem claim_C6_counterexample :
    callIdxs (handleBulkAdd c6St exParams c6Qres exIds "t0").2 = [1, 0] ∧
    ([1, 0] : List Nat) ≠ [0, 1] :=
  ⟨rfl, by decide⟩

/-- Claim C6 (amended): the bulk-add trace is exactly the concatenation,
over the selected indices in selection (insertion) order, of one
qualification call per present candidate followed by a 200 ms pause when
that qualification succeeded — in particular the calls are strictly
sequential, one at a time, in selection order. -/
theorem claim_C6_sequential_trace (st : DiscoveryState) (params : SearchParams)
    (qres : Nat → Except JsError Qual) (ids : Nat → String) (now : String) :
    (handleBulkAdd st params qres ids now).2 =
      (st.selected.map (bulkEventsFor st.discovered qres)).flatten := by
  unfold handleBulkAdd
  by_cases hemp : st.selected.isEmpty
  · have hnil : st.selected = [] := List.isEmpty_iff.mp hemp
    simp [hemp, hnil]
  · have hemp' : st.selected.isEmpty = false := by
      cases h : st.selected.isEmpty
      · rfl
      · exact absurd h hemp
    rw [hemp']
    simp only [Bool.false_eq_true, if_false]
    rw [← bulkCollect_snd]
    split <;> rfl

/-! ## Claim C7 -/

/-- Claim C7: finishing a campaign increments `sent` and
`dailyLimitUsed` by exactly the number of session leads marked sent
(leaving the other counters alone), transitions every store lead marked
sent to status `Contacted`, and leaves every other store lead entirely
unchanged. -/
theorem claim_C7_finish_campaign (selectedLeads : List Lead) (sentIds : List String)
    (leads : List Lead) (stats : CampaignStats) :
    (handleFinishCampaign selectedLeads sentIds leads stats).2.sent =
      stats.sent + (selectedLeads.filter (fun l => sentIds.contains l.id)).length ∧
    (handleFinishCampaign selectedLeads sentIds leads stats).2.dailyLimitUsed =
      stats.dailyLimitUsed +
        (selectedLeads.filter (fun l => sentIds.contains l.id)).length ∧
    (handleFinishCampaign selectedLeads sentIds leads stats).2.opened = stats.opened ∧
    (handleFinishCampaign selectedLeads sentIds leads stats).2.replied = stats.replied ∧
    (handleFinishCampaign selectedLeads sentIds leads stats).2.clicks = stats.clicks ∧
    (handleFinishCampaign selectedLeads sentIds leads stats).1 =
      leads.map (fun l =>
        if sentIds.contains l.id = true ∧ l.id ∈ selectedLeads.map Lead.id then
          { l with status := .contacted }
        else l) := by
  refine ⟨rfl, rfl, rfl, rfl, rfl, ?_⟩
  unfold handleFinishCampaign handleSendEmails
  apply List.map_congr_left
  intro l _
  have hiff : ((selectedLeads.filter (fun s => sentIds.contains s.id)).any
      (fun tl => tl.id == l.id) = true) ↔
      (sentIds.contains l.id = true ∧ l.id ∈ selectedLeads.map Lead.id) := by
    simp only [List.any_eq_true, List.mem_filter, beq_iff_eq, List.mem_map]
    constructor
    · rintro ⟨tl, ⟨htl, hc⟩, heq⟩
      exact ⟨heq ▸ hc, ⟨tl, htl, heq⟩⟩
    · rintro ⟨hc, ⟨s, hs, heq⟩⟩
      exact ⟨s, ⟨hs, heq.symm ▸ hc⟩, heq⟩
  by_cases hcond : sentIds.contains l.id = true ∧ l.id ∈ selectedLeads.map Lead.id
  · rw [if_pos (hiff.mpr hcond), if_pos hcond]
  · rw [if_neg (fun hb => hcond (hiff.mp hb)), if_neg hcond]

/-! ## Claim C8 -/

/-- Claim C8: a successful single add constructs the persisted record
with the freshly generated identifier, status `New`, the add timestamp,
the qualification score and reason, a missing (or empty) website/phone
defaulted to the sentinel `"Not listed"`, a missing (or empty)
industry/city defaulted to the search parameters, hands exactly that
record to the store, removes the candidate from the pending list and
resets the selection. -/
theorem claim_C8_single_add (st : DiscoveryState) (params : SearchParams) (idx : Nat)
    (raw : Candidate) (q : Qual) (freshId now : String)
    (hidx : st.discovered[idx]? = some raw) :
    handleAddLead st params idx (.ok q) freshId now =
      { store := st.store ++ [mkLeadFromCandidate freshId now params raw q]
        discovered := st.discovered.eraseIdx idx
        selected := [] } ∧
    (mkLeadFromCandidate freshId now params raw q).id = freshId ∧
    (mkLeadFromCandidate freshId now params raw q).status = .new ∧
    (mkLeadFromCandidate freshId now params raw q).addedAt = now ∧
    (mkLeadFromCandidate freshId now params raw q).priorityScore = some q.score ∧
    (mkLeadFromCandidate freshId now params raw q).priorityReason = some q.reason ∧
    ((raw.website = none ∨ raw.website = some "") →
      (mkLeadFromCandidate freshId now params raw q).website = "Not listed") ∧
    (∀ w, raw.website = some w → w ≠ "" →
      (mkLeadFromCandidate freshId now params raw q).website = w) ∧
    ((raw.phoneNumber = none ∨ raw.phoneNumber = some "") →
      (mkLeadFromCandidate freshId now params raw q).phoneNumber = some "Not listed") ∧
    ((raw.industry = none ∨ raw.industry = some "") →
      (mkLeadFromCandidate freshId now params raw q).industry = params.industry) ∧
    ((raw.city = none ∨ raw.city = some "") →
      (mkLeadFromCandidate freshId now params raw q).city = params.city) := by
  refine ⟨?_, rfl, rfl, rfl, rfl, rfl, ?_, ?_, ?_, ?_, ?_⟩
  · simp [handleAddLead, hidx]
  · rintro (h | h) <;> simp [mkLeadFromCandidate, jsOrStr, h]
  · intro w hw hne
    simp [mkLeadFromCandidate, jsOrStr, hw, hne]
  · rintro (h | h) <;> simp [mkLeadFromCandidate, jsOrStr, h]
  · rintro (h | h) <;> simp [mkLeadFromCandidate, jsOrStr, h]
  · rintro (h | h) <;> simp [mkLeadFromCandidate, jsOrStr, h]

/-- Candidate for the C8 witness: website and phone missing, industry
empty, city missing. -/
def c8Cand : Candidate :=
  { businessName := some "Cafe One", industry := some "", city := none,
    website := none, phoneNumber := some "", rationale := some "needs an app" }

/-- State for the C8 witness: one pending candidate, empty store. -/
def c8St : DiscoveryState := { store := [], discovered := [c8Cand], selected := [0] }

/-- Qualification result for the C8 witness. -/
def c8Qual : Qual := { score := .high, reason := "no website" }

/-- Witness for C8 at a concrete single add: the store receives exactly
one `New` lead with the generated id, defaulted website/phone and the
search-parameter industry/city, and the candidate leaves the pending
list. -/
theorem claim_C8_witness :
    handleAddLead c8St exParams 0 (.ok c8Qual) "fresh-1" "2026-10-12T00:00:00Z" =
      { store := [mkLeadFromCandidate "fresh-1" "2026-10-12T00:00:00Z" exParams c8Cand c8Qual]
        discovered := []
        selected := [] } ∧
    (mkLeadFromCandidate "fresh-1" "2026-10-12T00:00:00Z" exParams c8Cand c8Qual).website
      = "Not listed" ∧
    (mkLeadFromCandidate "fresh-1" "2026-10-12T00:00:00Z" exParams c8Cand c8Qual).phoneNumber
      = some "Not listed" ∧
    (mkLeadFromCandidate "fresh-1" "2026-10-12T00:00:00Z" exParams c8Cand c8Qual).industry
      = "Cafes" ∧
    (mkLeadFromCandidate "fresh-1" "2026-10-12T00:00:00Z" exParams c8Cand c8Qual).city
      = "Berlin, Germany" ∧
    (mkLeadFromCandidate "fresh-1" "2026-10-12T00:00:00Z" exParams c8Cand c8Qual).status
      = .new := by
  have h := claim_C8_single_add c8St exParams 0 c8Cand c8Qual "fresh-1"
    "2026-10-12T00:00:00Z" rfl
  refine ⟨by rw [h.1]; rfl, ?_, ?_, ?_, ?_, h.2.2.1⟩
  · exact h.2.2.2.2.2.2.1 (Or.inl rfl)
  · exact h.2.2.2.2.2.2.2.2.1 (Or.inr rfl)
  · exact h.2.2.2.2.2.2.2.2.2.1 (Or.inr rfl)
  · exact h.2.2.2.2.2.2.2.2.2.2 (Or.inl rfl)

/-! ## Claim C9

The claim as stated quantifies over every candidate and store: it is
violated when the candidate has an empty business name, because
`isDuplicate` short-circuits on a falsy name (`if (!leadName) return
false`) before the case-insensitive comparison, even when the store holds
a lead whose business name is also empty (and hence case-insensitively
equal).  The amended claim restricts the match to present, non-empty
business names; the selection behaviour and the unblocked single add are
unchanged. -/

/-- A stored lead with an empty business name, for the C9
counterexample. -/
def emptyNameLead : Lead :=
  { id := "L1", businessName := "", industry := "Cafes", city := "Berlin, Germany",
    website := "Not listed", phoneNumber := none, email := none, rationale := none,
    priorityScore := none, priorityReason := none, status := .new, addedAt := "t" }

/-- Counterexample to claim C9 as stated: a candidate whose business name
is the empty string case-insensitively equals the stored lead with empty
business name, yet `isDuplicate` does not flag it. -/
theorem claim_C9_counterexample :
    isDuplicate [emptyNameLead] (some "") = false ∧
    ([emptyNameLead].any
      (fun l => strToLower l.businessName == strToLower "")) = true :=
  ⟨rfl, rfl⟩

/-- Claim C9 (amended): a candidate is flagged duplicate exactly when its
business name is present, non-empty, and case-insensitively equals the
business name of some stored lead; toggling selection on a duplicate
leaves the state (hence the selection) unchanged; select-all selects only
indices of non-duplicate candidates; and a single add is not blocked on a
duplicate: the qualified record is appended to the store regardless. -/
theorem claim_C9_duplicate_policy (st : DiscoveryState) :
    (∀ name : Option String, isDuplicate st.store name = true ↔
      (∃ s, name = some s ∧ s ≠ "" ∧
        ∃ l ∈ st.store, strToLower l.businessName = strToLower s)) ∧
    (∀ idx c, st.discovered[idx]? = some c →
      isDuplicate st.store c.businessName = true →
      toggleSelection st idx = some st) ∧
    (∀ idx, idx ∈ (toggleSelectAll st).selected →
      ∃ c, st.discovered[idx]? = some c ∧
        isDuplicate st.store c.businessName = false) ∧
    (∀ (params : SearchParams) (idx : Nat) (raw : Candidate) (q : Qual)
        (freshId now : String), st.discovered[idx]? = some raw →
      isDuplicate st.store raw.businessName = true →
      (handleAddLead st params idx (.ok q) freshId now).store =
        st.store ++ [mkLeadFromCandidate freshId now params raw q]) := by
  refine ⟨?_, ?_, ?_, ?_⟩
  · intro name
    cases name with
    | none => simp [isDuplicate]
    | some s =>
      by_cases hs : s = ""
      · subst hs
        simp [isDuplicate]
      · simp only [isDuplicate, if_neg hs, List.any_eq_true, beq_iff_eq]
        constructor
        · rintro ⟨l, hl, heq⟩
          exact ⟨s, rfl, hs, l, hl, heq⟩
        · rintro ⟨s2, hseq, _, l, hl, heq⟩
          cases Option.some.inj hseq
          exact ⟨l, hl, heq⟩
  · intro idx c hidx hdup
    simp [toggleSelection, hidx, hdup]
  · intro idx hmem
    unfold toggleSelectAll at hmem
    by_cases hlen : st.selected.length = (availableIndices st).length
    · rw [if_pos hlen] at hmem
      simp at hmem
    · rw [if_neg hlen] at hmem
      unfold availableIndices at hmem
      simp only [List.mem_map, List.mem_filter] at hmem
      obtain ⟨p, ⟨hpenum, hpdup⟩, hpfst⟩ := hmem
      have hget := List.mem_enum_iff_getElem?.mp hpenum
      refine ⟨p.2, ?_, ?_⟩
      · rw [← hpfst]
        exact hget
      · simpa using hpdup
  · intro params idx raw q freshId now hidx _
    simp [handleAddLead, hidx]

/-- Stored lead for the C9 witness: business name in lower case. -/
def acmeLead : Lead :=
  { id := "L2", businessName := "acme co", industry := "Cafes", city := "Berlin, Germany",
    website := "Not listed", phoneNumber := none, email := none, rationale := none,
    priorityScore := none, priorityReason := none, status := .new, addedAt := "t" }

/-- Candidate for the C9 witness: same name with different case. -/
def acmeCand : Candidate :=
  { businessName := some "Acme Co", industry := none, city := none, website := none,
    phoneNumber := none, rationale := none }

/-- State for the C9 witness: the store already holds `acme co`, the
pending list holds the `Acme Co` candidate, nothing selected. -/
def c9St : DiscoveryState :=
  { store := [acmeLead], discovered := [acmeCand], selected := [] }

/-- Witness for C9 (amended) at a concrete state: `Acme Co` is flagged
against stored `acme co`, toggling it changes nothing, and a single add
still appends it. -/
theorem claim_C9_witness :
    isDuplicate c9St.store (some "Acme Co") = true ∧
    toggleSelection c9St 0 = some c9St ∧
    (handleAddLead c9St exParams 0 (.ok c8Qual) "fresh-2" "t2").store =
      c9St.store ++ [mkLeadFromCandidate "fresh-2" "t2" exParams acmeCand c8Qual] := by
  have h := claim_C9_duplicate_policy c9St
  have hdup : isDuplicate c9St.store (some "Acme Co") = true :=
    (h.1 (some "Acme Co")).mpr ⟨"Acme Co", rfl, by decide, acmeLead, by simp [c9St], by decide⟩
  exact ⟨hdup, h.2.1 0 acmeCand rfl hdup, h.2.2.2 exParams 0 acmeCand c8Qual "fresh-2" "t2" rfl hdup⟩
